import Mathlib

/-!
Shallow embedding of the process-descriptor builder of the repository's
`chart` package: the `process` entity, the overlay options, the scoping
resolver `canBeApplied`, the port-to-environment derivation
`portEnvVariables`, and the `newProcess` pipeline, followed by theorems
checking the specification's claims against these definitions.
-/

/-- Error values surfaced by the builder. The Go code uses open `error`
values; only the distinct error kinds named by the specification matter
to the claims. -/
inductive Err where
  | portsNotFound
  | invalidMetadataItem
  | probesFailure
  deriving DecidableEq, Repr

/-- Translation of the package-level `ErrPortsNotFound` error value
("routable process should have at least one container port and one
service port"). -/
def ErrPortsNotFound : Err := Err.portsNotFound

namespace v1

/-- External k8s type `v1.ContainerPort`; the code reads only its
`ContainerPort` number (an int32 in Go, no arithmetic is performed on it). -/
structure ContainerPort where
  ContainerPort : Int
  deriving DecidableEq, Repr

/-- External k8s type `v1.ServicePort`; the code reads only its `Port`
number (an int32 in Go, no arithmetic is performed on it). -/
structure ServicePort where
  Port : Int
  deriving DecidableEq, Repr

/-- External k8s type `v1.Probe`; its contents are never inspected by the
code, only stored, so it is modelled as an opaque tag. -/
structure Probe where
  tag : Nat := 0
  deriving DecidableEq, Repr

/-- External k8s type `v1.SecurityContext`; stored, never inspected. -/
structure SecurityContext where
  tag : Nat := 0
  deriving DecidableEq, Repr

/-- External k8s type `v1.ResourceRequirements`; stored, never inspected. -/
structure ResourceRequirements where
  tag : Nat := 0
  deriving DecidableEq, Repr

/-- External k8s type `v1.NodeSelectorTerm`; stored, never inspected. -/
structure NodeSelectorTerm where
  tag : Nat := 0
  deriving DecidableEq, Repr

/-- External k8s type `v1.Volume`; stored, never inspected. -/
structure Volume where
  tag : Nat := 0
  deriving DecidableEq, Repr

/-- External k8s type `v1.VolumeMount`; stored, never inspected. -/
structure VolumeMount where
  tag : Nat := 0
  deriving DecidableEq, Repr

/-- External k8s type `v1.Lifecycle`; stored, never inspected. -/
structure Lifecycle where
  tag : Nat := 0
  deriving DecidableEq, Repr

end v1

namespace ketchv1

/-- Go `ketchv1.Env`: one environment entry, a name/value pair of strings. -/
structure Env where
  Name : String
  Value : String
  deriving DecidableEq, Repr

/-- Modelled from the spec: the deployment-version context, "an integer
identifying which revision of the application a metadata overlay should
apply to"; the item-side filter is an "optional positive integer" with
"zero/unset" meaning all versions, so the carrier is Nat. The Go type
`ketchv1.DeploymentVersion` lives in the repository's API package, which
is not among the provided sources. -/
abbrev DeploymentVersion := Nat

/-- Modelled from the spec: a Metadata Item's `target` is "one of
{Deployment, Service, Pod} — selects which descriptor metadata bucket
receives the key/values". The Go type `ketchv1.Target` is in the
repository's API package, not among the provided sources. -/
inductive Target where
  | deployment
  | service
  | pod
  deriving DecidableEq, Repr

/-- Accessor mirroring Go's `Target.IsDeployment()`. -/
def Target.IsDeployment (t : Target) : Bool := t == Target.deployment

/-- Accessor mirroring Go's `Target.IsService()`. -/
def Target.IsService (t : Target) : Bool := t == Target.service

/-- Accessor mirroring Go's `Target.IsPod()`. -/
def Target.IsPod (t : Target) : Bool := t == Target.pod

/-- Modelled from the spec: a Metadata Item — `target`, an optional
`processName` filter (empty string means all processes), an optional
positive `deploymentVersion` filter (zero means all versions), and an
`apply` mapping from string keys to string values. The Go type
`ketchv1.MetadataItem` is in the repository's API package, not among the
provided sources. The apply map is carried as an association list; the
claims only observe lookups in the resulting buckets. -/
structure MetadataItem where
  Target : Target
  ProcessName : String
  DeploymentVersion : Nat
  Apply : List (String × String)
  deriving DecidableEq, Repr

/-- Modelled from the spec: `MetadataItem.Validate` is defined in the
repository's API package, not among the provided sources. The spec says an
item "must satisfy an internal validity check (e.g., non-empty `apply`, key
format rules)" and names an "empty `apply` map" as the failure example, so
validation is modelled as failing exactly on an empty apply map. -/
def MetadataItem.Validate (item : MetadataItem) : Option Err :=
  if item.Apply.isEmpty then some Err.invalidMetadataItem else none

/-- Modelled from the spec: the platform-wide default instance count
(`ketchv1.DefaultNumberOfUnits`, defined in the repository's API package,
not among the provided sources). The claims depend only on the built
descriptor's count being equal to this constant, not on its value. -/
def DefaultNumberOfUnits : Nat := 1

end ketchv1

/-- Go `map[string]string`, modelled as an association list whose keys stay
unique because every write goes through `StrMap.insert`. Go map iteration
order is irrelevant here: the code only writes entries, and the claims only
observe lookups. -/
abbrev StrMap := List (String × String)

/-- Set a key, overwriting the previous value if the key is present. -/
def StrMap.insert : StrMap → String → String → StrMap
  | [], k, v => [(k, v)]
  | (k', v') :: rest, k, v =>
    if k' == k then (k, v) :: rest else (k', v') :: StrMap.insert rest k v

/-- Look a key up. -/
def StrMap.find : StrMap → String → Option String
  | [], _ => none
  | (k', v') :: rest, k => if k' == k then some v' else StrMap.find rest k

/-- Go `extraMetadata`: the labels and annotations of one metadata bucket.
In Go both fields are maps whose zero value is nil; `none` models a nil
map, `some m` a map that has been made. -/
structure extraMetadata where
  Labels : Option StrMap := none
  Annotations : Option StrMap := none
  deriving DecidableEq, Repr

/-- Go `Probes` (chart package): the probe bundle returned by the port
configurator. -/
structure Probes where
  Liveness : Option v1.Probe := none
  Readiness : Option v1.Probe := none
  StartupProbe : Option v1.Probe := none
  deriving DecidableEq, Repr

/-- Go `process`: the process descriptor. Field defaults are the Go zero
values, so a Go composite literal that sets only some fields is translated
by a structure instance setting the same fields. -/
structure process where
  Name : String := ""
  Cmd : List String := []
  Units : Nat := 0
  Routable : Bool := false
  ContainerPorts : List v1.ContainerPort := []
  ServicePorts : List v1.ServicePort := []
  PublicServicePort : Int := 0
  Env : List ketchv1.Env := []
  SecurityContext : Option v1.SecurityContext := none
  ResourceRequirements : Option v1.ResourceRequirements := none
  NodeSelectorTerms : List v1.NodeSelectorTerm := []
  Volumes : List v1.Volume := []
  VolumeMounts : List v1.VolumeMount := []
  ReadinessProbe : Option v1.Probe := none
  LivenessProbe : Option v1.Probe := none
  StartupProbe : Option v1.Probe := none
  Lifecycle : Option v1.Lifecycle := none
  ServiceMetadata : extraMetadata := {}
  DeploymentMetadata : extraMetadata := {}
  PodMetadata : extraMetadata := {}
  deriving DecidableEq, Repr

/-- Go `process.hasOpenPort`. -/
def process.hasOpenPort (p : process) : Bool :=
  p.ContainerPorts.length > 0 && p.ServicePorts.length > 0

/-- Go `process.portEnvVariables`: derive port environment variables from
the container ports. `toString` on `Int` produces the same plain decimal
string as Go's `fmt.Sprintf` with the decimal verb. -/
def process.portEnvVariables (p : process) : List ketchv1.Env :=
  if p.ContainerPorts.length == 0 then []
  else
    let singlePortEnvs : List ketchv1.Env :=
      if p.ContainerPorts.length == 1 then
        match p.ContainerPorts.head? with
        | some cp =>
          let portValue := toString cp.ContainerPort
          [{ Name := "port", Value := portValue },
           { Name := "PORT", Value := portValue }]
        | none => []
      else []
    let ports := p.ContainerPorts.map fun cp => toString cp.ContainerPort
    singlePortEnvs ++
      [{ Name := "PORT_" ++ p.Name, Value := String.intercalate "," ports }]

/-- Go `processOption`: a mutation of the descriptor that can fail. The Go
option mutates the struct in place and returns an error; here it returns
the updated descriptor or the error. -/
abbrev processOption := process → Except Err process

/-- Go `withUnits`: set the instance count when the pointer is non-nil. -/
def withUnits (units : Option Nat) : processOption := fun p =>
  match units with
  | some u => Except.ok { p with Units := u }
  | none => Except.ok p

/-- Go `withEnvs`: set (not append) the configured environment entries. -/
def withEnvs (envs : List ketchv1.Env) : processOption := fun p =>
  Except.ok { p with Env := envs }

/-- Go `withCmd`. -/
def withCmd (cmd : List String) : processOption := fun p =>
  Except.ok { p with Cmd := cmd }

/-- Go `portConfigurator` interface: the Port Source. `Probes` carries the
result of the Go `Probes()` call — a probe bundle or an error. -/
structure portConfigurator where
  ContainerPortsForProcess : String → List v1.ContainerPort
  ServicePortsForProcess : String → List v1.ServicePort
  Probes : Except Err Probes

/-- Go `withPortsAndProbes`: wire ports and, when both port lists are
non-empty, probes and the public service port. -/
def withPortsAndProbes (c : portConfigurator) : processOption := fun p =>
  let p := { p with ServicePorts := c.ServicePortsForProcess p.Name }
  let p := { p with ContainerPorts := c.ContainerPortsForProcess p.Name }
  if p.ContainerPorts.length == 0 || p.ServicePorts.length == 0 then
    Except.ok p
  else
    match c.Probes with
    | Except.error e => Except.error e
    | Except.ok probes =>
      Except.ok { p with
        PublicServicePort :=
          -- the none branch is unreachable: this match sits under the
          -- non-emptiness guard on ServicePorts
          match p.ServicePorts.head? with
          | some sp => sp.Port
          | none => 0,
        LivenessProbe := probes.Liveness,
        ReadinessProbe := probes.Readiness,
        StartupProbe := probes.StartupProbe }

/-- Go `withSecurityContext`. -/
def withSecurityContext (securityContext : Option v1.SecurityContext) : processOption := fun p =>
  Except.ok { p with SecurityContext := securityContext }

/-- Go `withLifecycle`. -/
def withLifecycle (lc : Option v1.Lifecycle) : processOption := fun p =>
  Except.ok { p with Lifecycle := lc }

/-- Go `withResourceRequirements`. -/
def withResourceRequirements (rr : Option v1.ResourceRequirements) : processOption := fun p =>
  Except.ok { p with ResourceRequirements := rr }

/-- Go `withVolumes`. -/
def withVolumes (volumes : List v1.Volume) : processOption := fun p =>
  Except.ok { p with Volumes := volumes }

/-- Go `withVolumeMounts`. -/
def withVolumeMounts (vm : List v1.VolumeMount) : processOption := fun p =>
  Except.ok { p with VolumeMounts := vm }

/-- Go `canBeApplied`: the scoping resolver's applicability predicate. -/
def canBeApplied (item : ketchv1.MetadataItem) (processName : String)
    (version : ketchv1.DeploymentVersion) : Bool :=
  if item.DeploymentVersion > 0 && version != item.DeploymentVersion then false
  else if item.ProcessName != "" && processName != item.ProcessName then false
  else true

/-- One iteration of the inner key/value loop of `withLabels`: set one key
in the label map of the bucket selected by the item's target. Following
the Go code, a nil (`none`) map is made on first write. -/
def labelStep (item : ketchv1.MetadataItem) (q : process) (kv : String × String) : process :=
  if item.Target.IsDeployment then
    { q with DeploymentMetadata := { q.DeploymentMetadata with
        Labels := some (StrMap.insert (q.DeploymentMetadata.Labels.getD []) kv.1 kv.2) } }
  else if item.Target.IsService then
    { q with ServiceMetadata := { q.ServiceMetadata with
        Labels := some (StrMap.insert (q.ServiceMetadata.Labels.getD []) kv.1 kv.2) } }
  else if item.Target.IsPod then
    { q with PodMetadata := { q.PodMetadata with
        Labels := some (StrMap.insert (q.PodMetadata.Labels.getD []) kv.1 kv.2) } }
  else q

/-- Body of the `withLabels` loop for one applicable, validated item:
iterate the item's apply pairs and set each key. -/
def applyMetadataItemLabels (item : ketchv1.MetadataItem) (p : process) : process :=
  item.Apply.foldl (labelStep item) p

/-- The `withLabels` loop over the item list: skip items that cannot be
applied, abort on the first item failing validation, merge the rest. -/
def withLabelsLoop : List ketchv1.MetadataItem → ketchv1.DeploymentVersion → process → Except Err process
  | [], _, p => Except.ok p
  | item :: rest, dv, p =>
    if !canBeApplied item p.Name dv then withLabelsLoop rest dv p
    else
      match item.Validate with
      | some e => Except.error e
      | none => withLabelsLoop rest dv (applyMetadataItemLabels item p)

/-- Go `withLabels`: populate label buckets from the metadata items. -/
def withLabels (labels : List ketchv1.MetadataItem)
    (deploymentVersion : ketchv1.DeploymentVersion) : processOption := fun p =>
  withLabelsLoop labels deploymentVersion p

/-- One iteration of the inner key/value loop of `withAnnotations`; the
annotation counterpart of `labelStep`. -/
def annotationStep (item : ketchv1.MetadataItem) (q : process) (kv : String × String) : process :=
  if item.Target.IsDeployment then
    { q with DeploymentMetadata := { q.DeploymentMetadata with
        Annotations := some (StrMap.insert (q.DeploymentMetadata.Annotations.getD []) kv.1 kv.2) } }
  else if item.Target.IsService then
    { q with ServiceMetadata := { q.ServiceMetadata with
        Annotations := some (StrMap.insert (q.ServiceMetadata.Annotations.getD []) kv.1 kv.2) } }
  else if item.Target.IsPod then
    { q with PodMetadata := { q.PodMetadata with
        Annotations := some (StrMap.insert (q.PodMetadata.Annotations.getD []) kv.1 kv.2) } }
  else q

/-- Body of the `withAnnotations` loop for one applicable, validated item;
the annotation counterpart of `applyMetadataItemLabels`. -/
def applyMetadataItemAnnotations (item : ketchv1.MetadataItem) (p : process) : process :=
  item.Apply.foldl (annotationStep item) p

/-- The `withAnnotations` loop over the item list. -/
def withAnnotationsLoop : List ketchv1.MetadataItem → ketchv1.DeploymentVersion → process → Except Err process
  | [], _, p => Except.ok p
  | item :: rest, dv, p =>
    if !canBeApplied item p.Name dv then withAnnotationsLoop rest dv p
    else
      match item.Validate with
      | some e => Except.error e
      | none => withAnnotationsLoop rest dv (applyMetadataItemAnnotations item p)

/-- Go `withAnnotations`: populate annotation buckets from the metadata
items. -/
def withAnnotations (anns : List ketchv1.MetadataItem)
    (deploymentVersion : ketchv1.DeploymentVersion) : processOption := fun p =>
  withAnnotationsLoop anns deploymentVersion p

/-- The descriptor `newProcess` starts from: the Go composite literal
setting name, the default unit count and the routable flag, all other
fields at their zero values. -/
def initialProcess (name : String) (isRoutable : Bool) : process :=
  { Name := name, Units := ketchv1.DefaultNumberOfUnits, Routable := isRoutable }

/-- The option loop of `newProcess`: apply each option in order, stopping
at the first error. -/
def applyOpts : List processOption → process → Except Err process
  | [], p => Except.ok p
  | o :: rest, p =>
    match o p with
    | Except.error e => Except.error e
    | Except.ok q => applyOpts rest q

/-- The environment-derivation step of `newProcess`: append the derived
port environment variables after the configured entries. -/
def appendPortEnvs (p : process) : process :=
  { p with Env := p.Env ++ p.portEnvVariables }

/-- Go `newProcess`: the descriptor-builder pipeline. -/
def newProcess (name : String) (isRoutable : Bool) (opts : List processOption) : Except Err process :=
  match applyOpts opts (initialProcess name isRoutable) with
  | Except.error e => Except.error e
  | Except.ok p =>
    let p := appendPortEnvs p
    if !p.Routable then Except.ok p
    else if !p.hasOpenPort then Except.error ErrPortsNotFound
    else Except.ok p

/-- The overlay operations the repository actually passes to `newProcess`:
one constructor per `with...` option definition, carrying that option's
parameters. Quantifying over lists of these captures "every build" the
program can make. -/
inductive Opt where
  | units (u : Option Nat)
  | envs (envs : List ketchv1.Env)
  | cmd (cmd : List String)
  | portsAndProbes (c : portConfigurator)
  | securityContext (sc : Option v1.SecurityContext)
  | lifecycle (lc : Option v1.Lifecycle)
  | resourceRequirements (rr : Option v1.ResourceRequirements)
  | volumes (vs : List v1.Volume)
  | volumeMounts (vm : List v1.VolumeMount)
  | labels (ls : List ketchv1.MetadataItem) (dv : ketchv1.DeploymentVersion)
  | anns (as' : List ketchv1.MetadataItem) (dv : ketchv1.DeploymentVersion)

/-- Interpret an `Opt` as the corresponding `processOption` of the code. -/
def Opt.run : Opt → processOption
  | Opt.units u => withUnits u
  | Opt.envs es => withEnvs es
  | Opt.cmd c => withCmd c
  | Opt.portsAndProbes c => withPortsAndProbes c
  | Opt.securityContext sc => withSecurityContext sc
  | Opt.lifecycle lc => withLifecycle lc
  | Opt.resourceRequirements rr => withResourceRequirements rr
  | Opt.volumes vs => withVolumes vs
  | Opt.volumeMounts vm => withVolumeMounts vm
  | Opt.labels ls dv => withLabels ls dv
  | Opt.anns as' dv => withAnnotations as' dv

/-! ## Helper lemmas about the embedded definitions -/

theorem StrMap.find_insert_self (m : StrMap) (k v : String) :
    StrMap.find (StrMap.insert m k v) k = some v := by
  induction m with
  | nil => simp [StrMap.insert, StrMap.find]
  | cons hd tl ih =>
    obtain ⟨k1, v1⟩ := hd
    by_cases h : k1 = k
    · subst h; simp [StrMap.insert, StrMap.find]
    · simp [StrMap.insert, StrMap.find, h, ih]

theorem StrMap.find_insert_ne (m : StrMap) (k v k' : String) (h : k' ≠ k) :
    StrMap.find (StrMap.insert m k v) k' = StrMap.find m k' := by
  induction m with
  | nil => simp [StrMap.insert, StrMap.find, h.symm]
  | cons hd tl ih =>
    obtain ⟨k1, v1⟩ := hd
    by_cases hk : k1 = k
    · subst hk; simp [StrMap.insert, StrMap.find, h.symm]
    · simp [StrMap.insert, StrMap.find, hk, ih]

theorem labelStep_Name (item : ketchv1.MetadataItem) (q : process) (kv : String × String) :
    (labelStep item q kv).Name = q.Name := by
  unfold labelStep; split_ifs <;> rfl

theorem labelStep_Routable (item : ketchv1.MetadataItem) (q : process) (kv : String × String) :
    (labelStep item q kv).Routable = q.Routable := by
  unfold labelStep; split_ifs <;> rfl

theorem annotationStep_Name (item : ketchv1.MetadataItem) (q : process) (kv : String × String) :
    (annotationStep item q kv).Name = q.Name := by
  unfold annotationStep; split_ifs <;> rfl

theorem annotationStep_Routable (item : ketchv1.MetadataItem) (q : process) (kv : String × String) :
    (annotationStep item q kv).Routable = q.Routable := by
  unfold annotationStep; split_ifs <;> rfl

theorem foldl_labelStep_Name (item : ketchv1.MetadataItem) (l : List (String × String)) (p : process) :
    (l.foldl (labelStep item) p).Name = p.Name := by
  induction l generalizing p with
  | nil => rfl
  | cons kv rest ih => rw [List.foldl_cons, ih, labelStep_Name]

theorem foldl_labelStep_Routable (item : ketchv1.MetadataItem) (l : List (String × String)) (p : process) :
    (l.foldl (labelStep item) p).Routable = p.Routable := by
  induction l generalizing p with
  | nil => rfl
  | cons kv rest ih => rw [List.foldl_cons, ih, labelStep_Routable]

theorem foldl_annotationStep_Name (item : ketchv1.MetadataItem) (l : List (String × String)) (p : process) :
    (l.foldl (annotationStep item) p).Name = p.Name := by
  induction l generalizing p with
  | nil => rfl
  | cons kv rest ih => rw [List.foldl_cons, ih, annotationStep_Name]

theorem foldl_annotationStep_Routable (item : ketchv1.MetadataItem) (l : List (String × String)) (p : process) :
    (l.foldl (annotationStep item) p).Routable = p.Routable := by
  induction l generalizing p with
  | nil => rfl
  | cons kv rest ih => rw [List.foldl_cons, ih, annotationStep_Routable]

theorem applyMetadataItemLabels_Name (item : ketchv1.MetadataItem) (p : process) :
    (applyMetadataItemLabels item p).Name = p.Name :=
  foldl_labelStep_Name item item.Apply p

theorem applyMetadataItemLabels_Routable (item : ketchv1.MetadataItem) (p : process) :
    (applyMetadataItemLabels item p).Routable = p.Routable :=
  foldl_labelStep_Routable item item.Apply p

theorem applyMetadataItemAnnotations_Name (item : ketchv1.MetadataItem) (p : process) :
    (applyMetadataItemAnnotations item p).Name = p.Name :=
  foldl_annotationStep_Name item item.Apply p

theorem applyMetadataItemAnnotations_Routable (item : ketchv1.MetadataItem) (p : process) :
    (applyMetadataItemAnnotations item p).Routable = p.Routable :=
  foldl_annotationStep_Routable item item.Apply p

theorem withLabelsLoop_Routable (items : List ketchv1.MetadataItem)
    (dv : ketchv1.DeploymentVersion) (p q : process)
    (h : withLabelsLoop items dv p = Except.ok q) : q.Routable = p.Routable := by
  induction items generalizing p with
  | nil =>
    simp only [withLabelsLoop, Except.ok.injEq] at h
    rw [← h]
  | cons item rest ih =>
    unfold withLabelsLoop at h
    split at h
    · exact ih p h
    · split at h
      · cases h
      · rw [ih (applyMetadataItemLabels item p) h, applyMetadataItemLabels_Routable]

theorem withAnnotationsLoop_Routable (items : List ketchv1.MetadataItem)
    (dv : ketchv1.DeploymentVersion) (p q : process)
    (h : withAnnotationsLoop items dv p = Except.ok q) : q.Routable = p.Routable := by
  induction items generalizing p with
  | nil =>
    simp only [withAnnotationsLoop, Except.ok.injEq] at h
    rw [← h]
  | cons item rest ih =>
    unfold withAnnotationsLoop at h
    split at h
    · exact ih p h
    · split at h
      · cases h
      · rw [ih (applyMetadataItemAnnotations item p) h, applyMetadataItemAnnotations_Routable]

theorem optRun_Routable (o : Opt) (p q : process) (h : Opt.run o p = Except.ok q) :
    q.Routable = p.Routable := by
  cases o with
  | units u =>
    cases u with
    | none => simp only [Opt.run, withUnits, Except.ok.injEq] at h; rw [← h]
    | some x => simp only [Opt.run, withUnits, Except.ok.injEq] at h; rw [← h]
  | envs es => simp only [Opt.run, withEnvs, Except.ok.injEq] at h; rw [← h]
  | cmd c => simp only [Opt.run, withCmd, Except.ok.injEq] at h; rw [← h]
  | portsAndProbes c =>
    simp only [Opt.run, withPortsAndProbes] at h
    split at h
    · simp only [Except.ok.injEq] at h; rw [← h]
    · split at h
      · cases h
      · simp only [Except.ok.injEq] at h; rw [← h]
  | securityContext sc => simp only [Opt.run, withSecurityContext, Except.ok.injEq] at h; rw [← h]
  | lifecycle lc => simp only [Opt.run, withLifecycle, Except.ok.injEq] at h; rw [← h]
  | resourceRequirements rr => simp only [Opt.run, withResourceRequirements, Except.ok.injEq] at h; rw [← h]
  | volumes vs => simp only [Opt.run, withVolumes, Except.ok.injEq] at h; rw [← h]
  | volumeMounts vm => simp only [Opt.run, withVolumeMounts, Except.ok.injEq] at h; rw [← h]
  | labels ls dv => exact withLabelsLoop_Routable ls dv p q h
  | anns as' dv => exact withAnnotationsLoop_Routable as' dv p q h

theorem applyOptsRun_Routable (os : List Opt) (p q : process)
    (h : applyOpts (os.map Opt.run) p = Except.ok q) : q.Routable = p.Routable := by
  induction os generalizing p with
  | nil =>
    simp only [List.map_nil, applyOpts, Except.ok.injEq] at h
    rw [← h]
  | cons o rest ih =>
    simp only [List.map_cons, applyOpts] at h
    cases ho : Opt.run o p with
    | error e => rw [ho] at h; cases h
    | ok r => rw [ho] at h; rw [ih r h, optRun_Routable o p r ho]

theorem applyOpts_append (l1 l2 : List processOption) (p : process) :
    applyOpts (l1 ++ l2) p =
      match applyOpts l1 p with
      | Except.error e => Except.error e
      | Except.ok q => applyOpts l2 q := by
  induction l1 generalizing p with
  | nil => rfl
  | cons o rest ih =>
    cases h : o p with
    | error e => simp [applyOpts, h]
    | ok q => simp [applyOpts, h, ih]

/-! ## Claim theorems -/

/-- Reference definition of the derived port environment variables, written
from the words of claim C2: nothing when there are no container ports;
`port` and `PORT` (the single port, decimal) exactly in the one-port case;
always one `PORT_<processName>` entry whose value comma-joins the decimal
values of every container port in list order. -/
def portEnvVariablesRef (p : process) : List ketchv1.Env :=
  match p.ContainerPorts with
  | [] => []
  | [cp] =>
    [{ Name := "port", Value := toString cp.ContainerPort },
     { Name := "PORT", Value := toString cp.ContainerPort },
     { Name := "PORT_" ++ p.Name,
       Value := String.intercalate "," (p.ContainerPorts.map fun c => toString c.ContainerPort) }]
  | _ =>
    [{ Name := "PORT_" ++ p.Name,
       Value := String.intercalate "," (p.ContainerPorts.map fun c => toString c.ContainerPort) }]

/-- C2: for every descriptor, the derived port environment variables equal
the reference definition `portEnvVariablesRef`; in particular for container
ports [80, 443] and process name `web` the only derived entry is
`PORT_web=80,443`, with no `port`/`PORT` pair. -/
theorem portEnvVariables_eq_ref :
    (∀ p : process, p.portEnvVariables = portEnvVariablesRef p) ∧
    process.portEnvVariables
        { Name := "web",
          ContainerPorts := [{ ContainerPort := 80 }, { ContainerPort := 443 }] } =
      [{ Name := "PORT_web", Value := "80,443" }] := by
  constructor
  · intro p
    rcases hl : p.ContainerPorts with _ | ⟨cp, _ | ⟨cp2, rest⟩⟩ <;>
      simp [process.portEnvVariables, portEnvVariablesRef, hl]
  · rfl

/-- C4: a metadata item applies exactly when its deployment-version filter
is unset (zero) or equal to the version context, and its process-name
filter is unset (empty) or equal to the process name. -/
theorem canBeApplied_iff :
    ∀ (item : ketchv1.MetadataItem) (processName : String) (version : ketchv1.DeploymentVersion),
      canBeApplied item processName version = true ↔
        ((item.DeploymentVersion = 0 ∨ item.DeploymentVersion = version) ∧
         (item.ProcessName = "" ∨ item.ProcessName = processName)) := by
  intro item pn v
  unfold canBeApplied
  by_cases h1 : (item.DeploymentVersion > 0 && v != item.DeploymentVersion) = true
  · rw [if_pos h1]
    simp only [Bool.and_eq_true, decide_eq_true_eq, bne_iff_ne, ne_eq] at h1
    constructor
    · intro hf; exact Bool.noConfusion hf
    · rintro ⟨h0 | hv, -⟩
      · exact absurd h0 (by omega)
      · exact absurd hv.symm h1.2
  · rw [if_neg h1]
    simp only [Bool.and_eq_true, decide_eq_true_eq, bne_iff_ne, ne_eq, not_and,
      Decidable.not_not] at h1
    by_cases h2 : (item.ProcessName != "" && pn != item.ProcessName) = true
    · rw [if_pos h2]
      simp only [Bool.and_eq_true, bne_iff_ne, ne_eq] at h2
      constructor
      · intro hf; exact Bool.noConfusion hf
      · rintro ⟨-, he | hp⟩
        · exact absurd he h2.1
        · exact absurd hp.symm h2.2
    · rw [if_neg h2]
      simp only [Bool.and_eq_true, bne_iff_ne, ne_eq, not_and, Decidable.not_not] at h2
      constructor
      · intro _
        constructor
        · by_cases hz : item.DeploymentVersion = 0
          · exact Or.inl hz
          · exact Or.inr (h1 (by omega)).symm
        · by_cases he : item.ProcessName = ""
          · exact Or.inl he
          · exact Or.inr (h2 he).symm
      · intro _; rfl

/-- Witness for C4 at a concrete item, process name and version. -/
theorem canBeApplied_iff_witness :
    canBeApplied
      { Target := ketchv1.Target.service, ProcessName := "worker",
        DeploymentVersion := 0, Apply := [("k", "v")] } "worker" 2 = true :=
  (canBeApplied_iff
    { Target := ketchv1.Target.service, ProcessName := "worker",
      DeploymentVersion := 0, Apply := [("k", "v")] } "worker" 2).mpr
    ⟨Or.inl rfl, Or.inr rfl⟩

/-- Shape of `newProcess` when every overlay succeeds: the final step is
the env-derivation append followed by the routability check. -/
theorem newProcess_ok_shape (name : String) (isRoutable : Bool)
    (opts : List processOption) (p : process)
    (h : applyOpts opts (initialProcess name isRoutable) = Except.ok p) :
    newProcess name isRoutable opts =
      (if !(appendPortEnvs p).Routable then Except.ok (appendPortEnvs p)
       else if !(appendPortEnvs p).hasOpenPort then Except.error ErrPortsNotFound
       else Except.ok (appendPortEnvs p)) := by
  unfold newProcess
  rw [h]

/-- Shape of `newProcess` when the overlay loop fails: the error is
returned unchanged. -/
theorem newProcess_error_shape (name : String) (isRoutable : Bool)
    (opts : List processOption) (e : Err)
    (h : applyOpts opts (initialProcess name isRoutable) = Except.error e) :
    newProcess name isRoutable opts = Except.error e := by
  unfold newProcess
  rw [h]

/-- C1: for every build whose overlay operations all succeed, a routable
process with an empty container-port or service-port list fails with the
missing-ports error and yields no descriptor, while a non-routable build
returns a descriptor with no port check, whatever the port lists hold. -/
theorem newProcess_routability_check :
    (∀ (name : String) (os : List Opt) (p : process),
       applyOpts (os.map Opt.run) (initialProcess name true) = Except.ok p →
       (p.ContainerPorts = [] ∨ p.ServicePorts = []) →
       newProcess name true (os.map Opt.run) = Except.error ErrPortsNotFound) ∧
    (∀ (name : String) (os : List Opt) (p : process),
       applyOpts (os.map Opt.run) (initialProcess name false) = Except.ok p →
       ∃ q, newProcess name false (os.map Opt.run) = Except.ok q) := by
  constructor
  · intro name os p hap hports
    have hr : (appendPortEnvs p).Routable = true :=
      applyOptsRun_Routable os (initialProcess name true) p hap
    have hop : (appendPortEnvs p).hasOpenPort = false := by
      unfold process.hasOpenPort
      rcases hports with h | h
      · have hc : (appendPortEnvs p).ContainerPorts = [] := h
        simp [hc]
      · have hs : (appendPortEnvs p).ServicePorts = [] := h
        simp [hs]
    rw [newProcess_ok_shape name true (os.map Opt.run) p hap, hr, hop]
    rfl
  · intro name os p hap
    have hr : (appendPortEnvs p).Routable = false :=
      applyOptsRun_Routable os (initialProcess name false) p hap
    refine ⟨appendPortEnvs p, ?_⟩
    rw [newProcess_ok_shape name false (os.map Opt.run) p hap, hr]
    rfl

/-- Witness for C1: the empty overlay list leaves both port lists empty, so
the routable build fails with the missing-ports error and the non-routable
build succeeds. -/
theorem newProcess_routability_check_witness :
    newProcess "web" true (List.map Opt.run []) = Except.error ErrPortsNotFound ∧
    ∃ q, newProcess "web" false (List.map Opt.run []) = Except.ok q :=
  ⟨newProcess_routability_check.1 "web" [] (initialProcess "web" true) rfl (Or.inl rfl),
   newProcess_routability_check.2 "web" [] (initialProcess "web" false) rfl⟩

/-- C3: the pipeline applies overlay operations in the caller-supplied list
order and stops at the first one that fails: after any successful prefix,
a failing operation makes the whole build return that error and no
descriptor, whatever operations follow it. -/
theorem newProcess_first_failure_stops :
    ∀ (name : String) (isRoutable : Bool) (pre : List processOption)
      (f : processOption) (post : List processOption) (p : process) (e : Err),
      applyOpts pre (initialProcess name isRoutable) = Except.ok p →
      f p = Except.error e →
      newProcess name isRoutable (pre ++ f :: post) = Except.error e := by
  intro name r pre f post p e h1 h2
  apply newProcess_error_shape
  rw [applyOpts_append, h1]
  simp [applyOpts, h2]

/-- Metadata item that fails its content validation: its apply map is
empty. -/
def emptyApplyItem : ketchv1.MetadataItem :=
  { Target := ketchv1.Target.deployment, ProcessName := "",
    DeploymentVersion := 0, Apply := [] }

/-- Witness for C3: a label overlay whose item fails validation stops the
build, and the operation after it is irrelevant. -/
theorem newProcess_first_failure_stops_witness :
    newProcess "w" false [withLabels [emptyApplyItem] 0, withCmd ["x"]] =
      Except.error Err.invalidMetadataItem :=
  newProcess_first_failure_stops "w" false [] (withLabels [emptyApplyItem] 0)
    [withCmd ["x"]] (initialProcess "w" false) Err.invalidMetadataItem rfl rfl

/-- C6: the environment of every successfully built descriptor is the
configured environment entries followed by the derived port entries, in
that exact order; appending removes and overwrites nothing. -/
theorem newProcess_env_append_order :
    ∀ (name : String) (isRoutable : Bool) (opts : List processOption) (p q : process),
      applyOpts opts (initialProcess name isRoutable) = Except.ok p →
      newProcess name isRoutable opts = Except.ok q →
      q.Env = p.Env ++ p.portEnvVariables := by
  intro name r opts p q h1 h2
  rw [newProcess_ok_shape name r opts p h1] at h2
  split_ifs at h2 <;> cases h2 <;> rfl

/-- The post-overlay descriptor of the C6 witness build. -/
def envWitnessProcess : process :=
  { initialProcess "w" false with Env := [{ Name := "A", Value := "1" }] }

/-- Witness for C6 on a build that configures one environment entry. -/
theorem newProcess_env_append_order_witness :
    (appendPortEnvs envWitnessProcess).Env =
      envWitnessProcess.Env ++ envWitnessProcess.portEnvVariables :=
  newProcess_env_append_order "w" false [withEnvs [{ Name := "A", Value := "1" }]]
    envWitnessProcess (appendPortEnvs envWitnessProcess) rfl rfl

/-- C7: the port-wiring overlay assigns the Port Source's service and
container ports for the process name; exactly when both lists are
non-empty it consults the Port Source for probes, assigns the three
probes and sets `publicServicePort` to the first service port (and
propagates a probe failure); when either list is empty it succeeds,
leaving probes and `publicServicePort` untouched whatever the probe call
would have returned. -/
theorem withPortsAndProbes_behavior :
    (∀ (c : portConfigurator) (p : process) (pb : Probes)
       (s0 : v1.ServicePort) (stl : List v1.ServicePort),
       c.ContainerPortsForProcess p.Name ≠ [] →
       c.ServicePortsForProcess p.Name = s0 :: stl →
       c.Probes = Except.ok pb →
       withPortsAndProbes c p = Except.ok
         { p with
           ServicePorts := s0 :: stl,
           ContainerPorts := c.ContainerPortsForProcess p.Name,
           PublicServicePort := s0.Port,
           LivenessProbe := pb.Liveness,
           ReadinessProbe := pb.Readiness,
           StartupProbe := pb.StartupProbe }) ∧
    (∀ (c : portConfigurator) (p : process),
       (c.ContainerPortsForProcess p.Name = [] ∨ c.ServicePortsForProcess p.Name = []) →
       withPortsAndProbes c p = Except.ok
         { p with
           ServicePorts := c.ServicePortsForProcess p.Name,
           ContainerPorts := c.ContainerPortsForProcess p.Name }) ∧
    (∀ (c : portConfigurator) (p : process) (e : Err),
       c.ContainerPortsForProcess p.Name ≠ [] →
       c.ServicePortsForProcess p.Name ≠ [] →
       c.Probes = Except.error e →
       withPortsAndProbes c p = Except.error e) := by
  refine ⟨?_, ?_, ?_⟩
  · intro c p pb s0 stl hc hs hpb
    simp [withPortsAndProbes, hc, hs, hpb]
  · intro c p h
    rcases h with h | h <;> simp [withPortsAndProbes, h]
  · intro c p e hc hs hpb
    simp [withPortsAndProbes, hc, hs, hpb]

/-- Port Source double returning one container port, one service port and a
full probe bundle. -/
def fullConfigurator : portConfigurator :=
  { ContainerPortsForProcess := fun _ => [{ ContainerPort := 8080 }],
    ServicePortsForProcess := fun _ => [{ Port := 80 }],
    Probes := Except.ok
      { Liveness := some { tag := 1 }, Readiness := some { tag := 2 },
        StartupProbe := some { tag := 3 } } }

/-- Port Source double returning no ports and a failing probe call. -/
def portlessConfigurator : portConfigurator :=
  { ContainerPortsForProcess := fun _ => [],
    ServicePortsForProcess := fun _ => [],
    Probes := Except.error Err.probesFailure }

/-- Port Source double returning ports but failing the probe call. -/
def failingProbesConfigurator : portConfigurator :=
  { ContainerPortsForProcess := fun _ => [{ ContainerPort := 9 }],
    ServicePortsForProcess := fun _ => [{ Port := 9 }],
    Probes := Except.error Err.probesFailure }

/-- Witness for C7 on the three concrete Port Source doubles. -/
theorem withPortsAndProbes_behavior_witness :
    withPortsAndProbes fullConfigurator (initialProcess "web" true) = Except.ok
      { initialProcess "web" true with
        ServicePorts := [{ Port := 80 }],
        ContainerPorts := [{ ContainerPort := 8080 }],
        PublicServicePort := 80,
        LivenessProbe := some { tag := 1 },
        ReadinessProbe := some { tag := 2 },
        StartupProbe := some { tag := 3 } } ∧
    withPortsAndProbes portlessConfigurator (initialProcess "web" true) = Except.ok
      { initialProcess "web" true with ServicePorts := [], ContainerPorts := [] } ∧
    withPortsAndProbes failingProbesConfigurator (initialProcess "web" true) =
      Except.error Err.probesFailure :=
  ⟨withPortsAndProbes_behavior.1 fullConfigurator (initialProcess "web" true)
      { Liveness := some { tag := 1 }, Readiness := some { tag := 2 },
        StartupProbe := some { tag := 3 } }
      { Port := 80 } [] (by decide) rfl rfl,
   withPortsAndProbes_behavior.2.1 portlessConfigurator (initialProcess "web" true)
      (Or.inl rfl),
   withPortsAndProbes_behavior.2.2 failingProbesConfigurator (initialProcess "web" true)
      Err.probesFailure (by decide) (by decide) rfl⟩

theorem validate_none_of_ne_nil (item : ketchv1.MetadataItem) (h : item.Apply ≠ []) :
    item.Validate = none := by
  unfold ketchv1.MetadataItem.Validate
  cases ha : item.Apply with
  | nil => exact absurd ha h
  | cons a l => rfl

theorem StrMap.find_insert (m : StrMap) (k v k' : String) :
    StrMap.find (StrMap.insert m k v) k' =
      if k == k' then some v else StrMap.find m k' := by
  by_cases h : k = k'
  · subst h
    simp [StrMap.find_insert_self]
  · simp [h, StrMap.find_insert_ne m k v k' (Ne.symm h)]

/-- The metadata bucket a target selects — the claim's "selected bucket",
matching how `labelStep` and `annotationStep` route their writes. -/
def selectBucket (t : ketchv1.Target) (p : process) : extraMetadata :=
  match t with
  | ketchv1.Target.deployment => p.DeploymentMetadata
  | ketchv1.Target.service => p.ServiceMetadata
  | ketchv1.Target.pod => p.PodMetadata

/-- The value an item's apply map assigns to a key: the last binding of
the key in the carried association list, which for the unique-keyed map a
Go item carries is simply the map's value at that key. -/
def applyValue : List (String × String) → String → Option String
  | [], _ => none
  | kv :: rest, k =>
    match applyValue rest k with
    | some v => some v
    | none => if kv.1 == k then some kv.2 else none

theorem labelStep_bucket_find (item : ketchv1.MetadataItem) (p : process)
    (kv : String × String) (k : String) :
    StrMap.find ((selectBucket item.Target (labelStep item p kv)).Labels.getD []) k =
      (if kv.1 == k then some kv.2
       else StrMap.find ((selectBucket item.Target p).Labels.getD []) k) := by
  cases ht : item.Target <;>
    simp [labelStep, selectBucket, ketchv1.Target.IsDeployment,
      ketchv1.Target.IsService, ketchv1.Target.IsPod, ht, StrMap.find_insert]

theorem annotationStep_bucket_find (item : ketchv1.MetadataItem) (p : process)
    (kv : String × String) (k : String) :
    StrMap.find ((selectBucket item.Target (annotationStep item p kv)).Annotations.getD []) k =
      (if kv.1 == k then some kv.2
       else StrMap.find ((selectBucket item.Target p).Annotations.getD []) k) := by
  cases ht : item.Target <;>
    simp [annotationStep, selectBucket, ketchv1.Target.IsDeployment,
      ketchv1.Target.IsService, ketchv1.Target.IsPod, ht, StrMap.find_insert]

theorem foldl_labelStep_bucket_find (item : ketchv1.MetadataItem)
    (l : List (String × String)) (p : process) (k : String) :
    StrMap.find ((selectBucket item.Target (l.foldl (labelStep item) p)).Labels.getD []) k =
      (match applyValue l k with
       | some v => some v
       | none => StrMap.find ((selectBucket item.Target p).Labels.getD []) k) := by
  induction l generalizing p with
  | nil => rfl
  | cons kv rest ih =>
    rw [List.foldl_cons, ih (labelStep item p kv)]
    cases hr : applyValue rest k with
    | some v => simp [applyValue, hr]
    | none =>
      rw [labelStep_bucket_find]
      simp only [applyValue, hr]
      split_ifs <;> rfl

theorem foldl_annotationStep_bucket_find (item : ketchv1.MetadataItem)
    (l : List (String × String)) (p : process) (k : String) :
    StrMap.find ((selectBucket item.Target (l.foldl (annotationStep item) p)).Annotations.getD []) k =
      (match applyValue l k with
       | some v => some v
       | none => StrMap.find ((selectBucket item.Target p).Annotations.getD []) k) := by
  induction l generalizing p with
  | nil => rfl
  | cons kv rest ih =>
    rw [List.foldl_cons, ih (annotationStep item p kv)]
    cases hr : applyValue rest k with
    | some v => simp [applyValue, hr]
    | none =>
      rw [annotationStep_bucket_find]
      simp only [applyValue, hr]
      split_ifs <;> rfl

theorem applyLabels_bucket_find (item : ketchv1.MetadataItem) (p : process) (k : String) :
    StrMap.find ((selectBucket item.Target (applyMetadataItemLabels item p)).Labels.getD []) k =
      (match applyValue item.Apply k with
       | some v => some v
       | none => StrMap.find ((selectBucket item.Target p).Labels.getD []) k) :=
  foldl_labelStep_bucket_find item item.Apply p k

theorem applyAnnotations_bucket_find (item : ketchv1.MetadataItem) (p : process) (k : String) :
    StrMap.find ((selectBucket item.Target (applyMetadataItemAnnotations item p)).Annotations.getD []) k =
      (match applyValue item.Apply k with
       | some v => some v
       | none => StrMap.find ((selectBucket item.Target p).Annotations.getD []) k) :=
  foldl_annotationStep_bucket_find item item.Apply p k

theorem withLabels_pair_ok (dv : ketchv1.DeploymentVersion) (p : process)
    (i1 i2 : ketchv1.MetadataItem)
    (hca1 : canBeApplied i1 p.Name dv = true)
    (hca2 : canBeApplied i2 p.Name dv = true)
    (hv1 : i1.Validate = none) (hv2 : i2.Validate = none) :
    withLabels [i1, i2] dv p =
      Except.ok (applyMetadataItemLabels i2 (applyMetadataItemLabels i1 p)) := by
  simp [withLabels, withLabelsLoop, hca1, hca2, hv1, hv2, applyMetadataItemLabels_Name]

theorem withAnnotations_pair_ok (dv : ketchv1.DeploymentVersion) (p : process)
    (i1 i2 : ketchv1.MetadataItem)
    (hca1 : canBeApplied i1 p.Name dv = true)
    (hca2 : canBeApplied i2 p.Name dv = true)
    (hv1 : i1.Validate = none) (hv2 : i2.Validate = none) :
    withAnnotations [i1, i2] dv p =
      Except.ok (applyMetadataItemAnnotations i2 (applyMetadataItemAnnotations i1 p)) := by
  simp [withAnnotations, withAnnotationsLoop, hca1, hca2, hv1, hv2,
    applyMetadataItemAnnotations_Name]

/-- Label item setting `tier=a` on the Deployment bucket of every process. -/
def tierA : ketchv1.MetadataItem :=
  { Target := ketchv1.Target.deployment, ProcessName := "",
    DeploymentVersion := 0, Apply := [("tier", "a")] }

/-- Label item setting `tier=b` on the Deployment bucket of every process. -/
def tierB : ketchv1.MetadataItem :=
  { Target := ketchv1.Target.deployment, ProcessName := "",
    DeploymentVersion := 0, Apply := [("tier", "b")] }

/-- Annotation item setting `color=red` and `tier=a` on the Service bucket
of every process. -/
def serviceAnnotationItemA : ketchv1.MetadataItem :=
  { Target := ketchv1.Target.service, ProcessName := "",
    DeploymentVersion := 0, Apply := [("color", "red"), ("tier", "a")] }

/-- Annotation item setting `tier=b` and `owner=ops` on the Service bucket
of every process. -/
def serviceAnnotationItemB : ketchv1.MetadataItem :=
  { Target := ketchv1.Target.service, ProcessName := "",
    DeploymentVersion := 0, Apply := [("tier", "b"), ("owner", "ops")] }

/-- C5: for two applicable metadata items in one overlay list that target
the same bucket, the later item determines the final value of every key
its apply map writes in the selected bucket's map of that overlay kind —
stated for the label overlay and the annotation overlay over all three
buckets and arbitrary apply maps — while keys neither item writes are
unaffected; in particular applying label items `[{tier:a}, {tier:b}]`,
both targeting Deployment, leaves `tier=b` in the deployment labels. -/
theorem metadata_overlay_last_wins :
    (∀ (dv : ketchv1.DeploymentVersion) (p : process)
       (i1 i2 : ketchv1.MetadataItem) (k b : String) (q : process),
       canBeApplied i1 p.Name dv = true →
       canBeApplied i2 p.Name dv = true →
       i1.Apply ≠ [] →
       i1.Target = i2.Target →
       applyValue i2.Apply k = some b →
       withLabels [i1, i2] dv p = Except.ok q →
       StrMap.find ((selectBucket i2.Target q).Labels.getD []) k = some b) ∧
    (∀ (dv : ketchv1.DeploymentVersion) (p : process)
       (i1 i2 : ketchv1.MetadataItem) (k' : String) (q : process),
       canBeApplied i1 p.Name dv = true →
       canBeApplied i2 p.Name dv = true →
       i1.Apply ≠ [] →
       i2.Apply ≠ [] →
       i1.Target = i2.Target →
       applyValue i1.Apply k' = none →
       applyValue i2.Apply k' = none →
       withLabels [i1, i2] dv p = Except.ok q →
       StrMap.find ((selectBucket i2.Target q).Labels.getD []) k' =
         StrMap.find ((selectBucket i2.Target p).Labels.getD []) k') ∧
    (∀ (dv : ketchv1.DeploymentVersion) (p : process)
       (i1 i2 : ketchv1.MetadataItem) (k b : String) (q : process),
       canBeApplied i1 p.Name dv = true →
       canBeApplied i2 p.Name dv = true →
       i1.Apply ≠ [] →
       i1.Target = i2.Target →
       applyValue i2.Apply k = some b →
       withAnnotations [i1, i2] dv p = Except.ok q →
       StrMap.find ((selectBucket i2.Target q).Annotations.getD []) k = some b) ∧
    (∀ (dv : ketchv1.DeploymentVersion) (p : process)
       (i1 i2 : ketchv1.MetadataItem) (k' : String) (q : process),
       canBeApplied i1 p.Name dv = true →
       canBeApplied i2 p.Name dv = true →
       i1.Apply ≠ [] →
       i2.Apply ≠ [] →
       i1.Target = i2.Target →
       applyValue i1.Apply k' = none →
       applyValue i2.Apply k' = none →
       withAnnotations [i1, i2] dv p = Except.ok q →
       StrMap.find ((selectBucket i2.Target q).Annotations.getD []) k' =
         StrMap.find ((selectBucket i2.Target p).Annotations.getD []) k') ∧
    withLabels [tierA, tierB] 1 (initialProcess "web" false) =
      Except.ok { initialProcess "web" false with
        DeploymentMetadata := { Labels := some [("tier", "b")] } } := by
  refine ⟨?_, ?_, ?_, ?_, ?_⟩
  · intro dv p i1 i2 k b q hca1 hca2 ha1 ht hv hq
    have h2ne : i2.Apply ≠ [] := by
      intro h
      rw [h] at hv
      simp [applyValue] at hv
    rw [withLabels_pair_ok dv p i1 i2 hca1 hca2
      (validate_none_of_ne_nil i1 ha1) (validate_none_of_ne_nil i2 h2ne)] at hq
    cases hq
    rw [applyLabels_bucket_find i2 (applyMetadataItemLabels i1 p) k, hv]
  · intro dv p i1 i2 k' q hca1 hca2 ha1 ha2 ht hv1 hv2 hq
    rw [withLabels_pair_ok dv p i1 i2 hca1 hca2
      (validate_none_of_ne_nil i1 ha1) (validate_none_of_ne_nil i2 ha2)] at hq
    cases hq
    rw [applyLabels_bucket_find i2 (applyMetadataItemLabels i1 p) k', hv2, ← ht,
      applyLabels_bucket_find i1 p k', hv1]
  · intro dv p i1 i2 k b q hca1 hca2 ha1 ht hv hq
    have h2ne : i2.Apply ≠ [] := by
      intro h
      rw [h] at hv
      simp [applyValue] at hv
    rw [withAnnotations_pair_ok dv p i1 i2 hca1 hca2
      (validate_none_of_ne_nil i1 ha1) (validate_none_of_ne_nil i2 h2ne)] at hq
    cases hq
    rw [applyAnnotations_bucket_find i2 (applyMetadataItemAnnotations i1 p) k, hv]
  · intro dv p i1 i2 k' q hca1 hca2 ha1 ha2 ht hv1 hv2 hq
    rw [withAnnotations_pair_ok dv p i1 i2 hca1 hca2
      (validate_none_of_ne_nil i1 ha1) (validate_none_of_ne_nil i2 ha2)] at hq
    cases hq
    rw [applyAnnotations_bucket_find i2 (applyMetadataItemAnnotations i1 p) k', hv2, ← ht,
      applyAnnotations_bucket_find i1 p k', hv1]
  · rfl

/-- Witness for C5: the `tier=a` then `tier=b` label items on the
Deployment bucket, the two multi-key annotation items on the Service
bucket, and in both overlays a key neither item writes. -/
theorem metadata_overlay_last_wins_witness :
    StrMap.find
      ((selectBucket tierB.Target
          (applyMetadataItemLabels tierB
            (applyMetadataItemLabels tierA (initialProcess "web" false)))).Labels.getD [])
      "tier" = some "b" ∧
    StrMap.find
      ((selectBucket tierB.Target
          (applyMetadataItemLabels tierB
            (applyMetadataItemLabels tierA (initialProcess "web" false)))).Labels.getD [])
      "zz" =
      StrMap.find
        ((selectBucket tierB.Target (initialProcess "web" false)).Labels.getD []) "zz" ∧
    StrMap.find
      ((selectBucket serviceAnnotationItemB.Target
          (applyMetadataItemAnnotations serviceAnnotationItemB
            (applyMetadataItemAnnotations serviceAnnotationItemA
              (initialProcess "web" false)))).Annotations.getD [])
      "tier" = some "b" ∧
    StrMap.find
      ((selectBucket serviceAnnotationItemB.Target
          (applyMetadataItemAnnotations serviceAnnotationItemB
            (applyMetadataItemAnnotations serviceAnnotationItemA
              (initialProcess "web" false)))).Annotations.getD [])
      "zz" =
      StrMap.find
        ((selectBucket serviceAnnotationItemB.Target (initialProcess "web" false)).Annotations.getD [])
        "zz" :=
  ⟨metadata_overlay_last_wins.1 1 (initialProcess "web" false) tierA tierB "tier" "b"
      (applyMetadataItemLabels tierB (applyMetadataItemLabels tierA (initialProcess "web" false)))
      rfl rfl (by decide) rfl rfl rfl,
   metadata_overlay_last_wins.2.1 1 (initialProcess "web" false) tierA tierB "zz"
      (applyMetadataItemLabels tierB (applyMetadataItemLabels tierA (initialProcess "web" false)))
      rfl rfl (by decide) (by decide) rfl rfl rfl rfl,
   metadata_overlay_last_wins.2.2.1 1 (initialProcess "web" false)
      serviceAnnotationItemA serviceAnnotationItemB "tier" "b"
      (applyMetadataItemAnnotations serviceAnnotationItemB
        (applyMetadataItemAnnotations serviceAnnotationItemA (initialProcess "web" false)))
      rfl rfl (by decide) rfl rfl rfl,
   metadata_overlay_last_wins.2.2.2.1 1 (initialProcess "web" false)
      serviceAnnotationItemA serviceAnnotationItemB "zz"
      (applyMetadataItemAnnotations serviceAnnotationItemB
        (applyMetadataItemAnnotations serviceAnnotationItemA (initialProcess "web" false)))
      rfl rfl (by decide) (by decide) rfl rfl rfl rfl⟩

theorem withLabelsLoop_error (items : List ketchv1.MetadataItem)
    (item : ketchv1.MetadataItem) (rest : List ketchv1.MetadataItem)
    (dv : ketchv1.DeploymentVersion) (p : process) (e : Err)
    (hval : ∀ i ∈ items, canBeApplied i p.Name dv = true → i.Validate = none)
    (hca : canBeApplied item p.Name dv = true)
    (hv : item.Validate = some e) :
    withLabelsLoop (items ++ item :: rest) dv p = Except.error e := by
  induction items generalizing p with
  | nil => simp [withLabelsLoop, hca, hv]
  | cons i items ih =>
    rw [List.cons_append]
    unfold withLabelsLoop
    by_cases hci : canBeApplied i p.Name dv = true
    · have hvi : i.Validate = none := hval i (List.mem_cons_self i items) hci
      simp only [hci, Bool.not_true, Bool.false_eq_true, if_false, hvi]
      apply ih
      · intro j hj hcj
        apply hval j (List.mem_cons_of_mem i hj)
        rwa [applyMetadataItemLabels_Name] at hcj
      · rwa [applyMetadataItemLabels_Name]
    · simp only [Bool.not_eq_true] at hci
      simp only [hci, Bool.not_false, if_true]
      exact ih p (fun j hj => hval j (List.mem_cons_of_mem i hj)) hca

theorem withAnnotationsLoop_error (items : List ketchv1.MetadataItem)
    (item : ketchv1.MetadataItem) (rest : List ketchv1.MetadataItem)
    (dv : ketchv1.DeploymentVersion) (p : process) (e : Err)
    (hval : ∀ i ∈ items, canBeApplied i p.Name dv = true → i.Validate = none)
    (hca : canBeApplied item p.Name dv = true)
    (hv : item.Validate = some e) :
    withAnnotationsLoop (items ++ item :: rest) dv p = Except.error e := by
  induction items generalizing p with
  | nil => simp [withAnnotationsLoop, hca, hv]
  | cons i items ih =>
    rw [List.cons_append]
    unfold withAnnotationsLoop
    by_cases hci : canBeApplied i p.Name dv = true
    · have hvi : i.Validate = none := hval i (List.mem_cons_self i items) hci
      simp only [hci, Bool.not_true, Bool.false_eq_true, if_false, hvi]
      apply ih
      · intro j hj hcj
        apply hval j (List.mem_cons_of_mem i hj)
        rwa [applyMetadataItemAnnotations_Name] at hcj
      · rwa [applyMetadataItemAnnotations_Name]
    · simp only [Bool.not_eq_true] at hci
      simp only [hci, Bool.not_false, if_true]
      exact ih p (fun j hj => hval j (List.mem_cons_of_mem i hj)) hca

/-- C8: an applicable metadata item that fails its content validation in a
label or annotation overlay aborts the whole build with that validation
error, and no descriptor is returned — whatever well-behaved items precede
it in the overlay list and whatever operations surround the overlay. -/
theorem invalid_item_aborts_build :
    (∀ (name : String) (isRoutable : Bool) (preOps post : List processOption)
       (items : List ketchv1.MetadataItem) (item : ketchv1.MetadataItem)
       (rest : List ketchv1.MetadataItem) (dv : ketchv1.DeploymentVersion)
       (p : process) (e : Err),
       applyOpts preOps (initialProcess name isRoutable) = Except.ok p →
       (∀ i ∈ items, canBeApplied i p.Name dv = true → i.Validate = none) →
       canBeApplied item p.Name dv = true →
       item.Validate = some e →
       newProcess name isRoutable
           (preOps ++ withLabels (items ++ item :: rest) dv :: post) =
         Except.error e) ∧
    (∀ (name : String) (isRoutable : Bool) (preOps post : List processOption)
       (items : List ketchv1.MetadataItem) (item : ketchv1.MetadataItem)
       (rest : List ketchv1.MetadataItem) (dv : ketchv1.DeploymentVersion)
       (p : process) (e : Err),
       applyOpts preOps (initialProcess name isRoutable) = Except.ok p →
       (∀ i ∈ items, canBeApplied i p.Name dv = true → i.Validate = none) →
       canBeApplied item p.Name dv = true →
       item.Validate = some e →
       newProcess name isRoutable
           (preOps ++ withAnnotations (items ++ item :: rest) dv :: post) =
         Except.error e) := by
  constructor
  · intro name r preOps post items item rest dv p e h1 hval hca hv
    apply newProcess_error_shape
    rw [applyOpts_append, h1]
    simp [applyOpts, withLabels, withLabelsLoop_error items item rest dv p e hval hca hv]
  · intro name r preOps post items item rest dv p e h1 hval hca hv
    apply newProcess_error_shape
    rw [applyOpts_append, h1]
    simp [applyOpts, withAnnotations, withAnnotationsLoop_error items item rest dv p e hval hca hv]

/-- Witness for C8: after one successful overlay, a label list holding one
valid applicable item and then an item with an empty apply map stops the
build with the validation error; the annotation case likewise. -/
theorem invalid_item_aborts_build_witness :
    newProcess "w" false
        ([withCmd ["run"]] ++ withLabels ([tierA] ++ emptyApplyItem :: []) 0 :: []) =
      Except.error Err.invalidMetadataItem ∧
    newProcess "w" false
        ([withCmd ["run"]] ++ withAnnotations ([tierA] ++ emptyApplyItem :: []) 0 :: []) =
      Except.error Err.invalidMetadataItem :=
  ⟨invalid_item_aborts_build.1 "w" false [withCmd ["run"]] [] [tierA] emptyApplyItem []
      0 { initialProcess "w" false with Cmd := ["run"] } Err.invalidMetadataItem rfl
      (fun i hi _ => by
        cases hi with
        | head => rfl
        | tail _ h => cases h)
      rfl rfl,
   invalid_item_aborts_build.2 "w" false [withCmd ["run"]] [] [tierA] emptyApplyItem []
      0 { initialProcess "w" false with Cmd := ["run"] } Err.invalidMetadataItem rfl
      (fun i hi _ => by
        cases hi with
        | head => rfl
        | tail _ h => cases h)
      rfl rfl⟩

/-- C10: an item failing the scoping filter is skipped outright — the
result of the overlay does not depend on the item at all, so its content
validation is never consulted and an invalid but non-applicable item
cannot abort the build. -/
theorem not_applicable_item_skipped :
    (∀ (item : ketchv1.MetadataItem) (rest : List ketchv1.MetadataItem)
       (dv : ketchv1.DeploymentVersion) (p : process),
       canBeApplied item p.Name dv = false →
       withLabels (item :: rest) dv p = withLabels rest dv p) ∧
    (∀ (item : ketchv1.MetadataItem) (rest : List ketchv1.MetadataItem)
       (dv : ketchv1.DeploymentVersion) (p : process),
       canBeApplied item p.Name dv = false →
       withAnnotations (item :: rest) dv p = withAnnotations rest dv p) := by
  constructor
  · intro item rest dv p h
    simp [withLabels, withLabelsLoop, h]
  · intro item rest dv p h
    simp [withAnnotations, withAnnotationsLoop, h]

/-- Metadata item that both fails validation (empty apply map) and fails
the scoping filter at version context 5 (its filter selects version 3). -/
def staleInvalidItem : ketchv1.MetadataItem :=
  { Target := ketchv1.Target.pod, ProcessName := "",
    DeploymentVersion := 3, Apply := [] }

/-- Witness for C10: an invalid item whose version filter does not match is
skipped by both loops instead of aborting. -/
theorem not_applicable_item_skipped_witness :
    withLabels [staleInvalidItem] 5 (initialProcess "w" false) =
      withLabels [] 5 (initialProcess "w" false) ∧
    withAnnotations [staleInvalidItem] 5 (initialProcess "w" false) =
      withAnnotations [] 5 (initialProcess "w" false) :=
  ⟨not_applicable_item_skipped.1 staleInvalidItem [] 5 (initialProcess "w" false) rfl,
   not_applicable_item_skipped.2 staleInvalidItem [] 5 (initialProcess "w" false) rfl⟩

/-- C9 (amended): a build with no overlays beyond name and
routability=false succeeds; the descriptor has empty port lists, the
default instance count, an empty environment, and metadata buckets whose
label and annotation maps are still nil (`none`) — observationally empty,
but not the eagerly initialized empty maps the claim describes, since the
code creates them lazily on first write inside the label/annotation
overlays. -/
theorem fresh_build_defaults :
    ∀ name : String,
      newProcess name false [] =
        Except.ok (appendPortEnvs (initialProcess name false)) ∧
      (appendPortEnvs (initialProcess name false)).ContainerPorts = [] ∧
      (appendPortEnvs (initialProcess name false)).ServicePorts = [] ∧
      (appendPortEnvs (initialProcess name false)).Units = ketchv1.DefaultNumberOfUnits ∧
      (appendPortEnvs (initialProcess name false)).Env = [] ∧
      (appendPortEnvs (initialProcess name false)).DeploymentMetadata =
        { Labels := none, Annotations := none } ∧
      (appendPortEnvs (initialProcess name false)).ServiceMetadata =
        { Labels := none, Annotations := none } ∧
      (appendPortEnvs (initialProcess name false)).PodMetadata =
        { Labels := none, Annotations := none } := by
  intro name
  exact ⟨rfl, rfl, rfl, rfl, rfl, rfl, rfl, rfl⟩

/-- Counterexample to C9 as stated: the descriptor built with no overlays
carries a nil (`none`) deployment label map — the Go zero value, lazily
replaced by a made map only on the first overlay write — not a map
initialized empty (`some []`) at descriptor creation. -/
theorem metadata_maps_not_eagerly_initialized :
    Except.map (fun q => q.DeploymentMetadata.Labels) (newProcess "w" false []) =
      Except.ok none ∧
    (none : Option StrMap) ≠ some [] := by
  exact ⟨rfl, by decide⟩
